import Mathlib

/-!
Verification of the bookmark-sync core: a shallow embedding of the
incoming-record applicator, record codec, merge applier and outgoing builder
from `components/places/src/bookmark_sync/{incoming.rs, record.rs, store.rs}`.

Strings are modelled as Lean `String`s over their character lists; the model
covers ASCII content (Rust byte lengths coincide with character counts there).
The SQL store is modelled as explicit state: association lists keyed the way
the corresponding tables are keyed.
-/

namespace BookmarkSync

/-- Modelled from the spec: policy constant `TAG_LENGTH_MAX` (tags longer than
this are dropped). The constant lives in `crate::storage`, which is not part
of the sources; the value is the upstream one. -/
def TAG_LENGTH_MAX : Nat := 100

/-- Modelled from the spec: policy constant `URL_LENGTH_MAX` (URLs longer than
this are rejected by the place-store adapter with `UrlTooLong`). The constant
lives in `crate::storage`, which is not part of the sources; the value is the
upstream one. -/
def URL_LENGTH_MAX : Nat := 65536

/-- Modelled from the spec: policy constant `TITLE_LENGTH_MAX` (titles are
truncated to this length after normalization). -/
def TITLE_LENGTH_MAX : Nat := 4096

/-- `SyncedBookmarkKind` from `crate::types` (declared outside the sources;
variants fixed by the spec's Bookmark Kind enum and their uses in the
sources). -/
inductive SyncedBookmarkKind where
  | Bookmark
  | Query
  | Folder
  | Livemark
  | Separator
deriving DecidableEq, Repr

/-- `SyncedBookmarkValidity` from `crate::types` (declared outside the
sources; variants fixed by the spec's Validity enum and their uses in the
sources). -/
inductive SyncedBookmarkValidity where
  | Valid
  | Reupload
  | Replace
deriving DecidableEq, Repr

/-- `const RESULTS_AS_TAG_CONTENTS: &str = "7"` (incoming.rs). -/
def RESULTS_AS_TAG_CONTENTS : String := "7"

/-- Rust `str::trim` on the character-list view: drop whitespace from both
ends (ASCII scope). -/
def rustTrim (s : String) : String :=
  String.mk ((s.data.dropWhile Char.isWhitespace).reverse.dropWhile
    Char.isWhitespace).reverse

/-- `validate_tag` (incoming.rs): trim the tag, drop it when empty or longer
than `TAG_LENGTH_MAX`. -/
def validate_tag : Option String → Option String
  | none => none
  | some t =>
    let t := rustTrim t
    if t.length = 0 ∨ TAG_LENGTH_MAX < t.length then none else some t

/-! ### The `url` crate surface used by the sources

`url::form_urlencoded::parse`, the `form_urlencoded` serializer, and
`Url::parse`/`Url::as_str` are external-library collaborators. They are
modelled here for the non-hierarchical (`place:`) URLs the query rewriting
works on, over printable-ASCII content: a URL is a scheme plus an opaque
path, parsing splits at the first `:` and validates the scheme, and
serialization is the identity on scheme and path. -/

/-- Split a character list on `&` (the separators are consumed). -/
def splitOnAmp : List Char → List (List Char)
  | [] => [[]]
  | c :: rest =>
    if c = '&' then [] :: splitOnAmp rest
    else
      match splitOnAmp rest with
      | [] => [[c]]
      | g :: gs => (c :: g) :: gs

/-- Split a character list at the first `=`; without one the value part is
empty (as in the `url` crate's pair parsing). -/
def splitAtEq : List Char → List Char × List Char
  | [] => ([], [])
  | c :: rest =>
    if c = '=' then ([], rest)
    else
      let (k, v) := splitAtEq rest
      (c :: k, v)

/-- Value of an ASCII hex digit. -/
def hexVal (c : Char) : Option Nat :=
  if '0' ≤ c ∧ c ≤ '9' then some (c.toNat - '0'.toNat)
  else if 'a' ≤ c ∧ c ≤ 'f' then some (c.toNat - 'a'.toNat + 10)
  else if 'A' ≤ c ∧ c ≤ 'F' then some (c.toNat - 'A'.toNat + 10)
  else none

/-- Percent-decoding with `+` as space (the `application/x-www-form-urlencoded`
decode, single-byte scope). -/
def percentDecode : List Char → List Char
  | [] => []
  | '%' :: a :: b :: rest =>
    match hexVal a, hexVal b with
    | some x, some y => Char.ofNat (16 * x + y) :: percentDecode rest
    | _, _ => '%' :: percentDecode (a :: b :: rest)
  | '+' :: rest => ' ' :: percentDecode rest
  | c :: rest => c :: percentDecode rest

/-- `url::form_urlencoded::parse`: split on `&`, skip empty parts, split each
part at the first `=`, percent-decode keys and values. -/
def formUrlencodedParse (s : String) : List (String × String) :=
  ((splitOnAmp s.data).filter (· ≠ [])).map fun part =>
    let (k, v) := splitAtEq part
    (String.mk (percentDecode k), String.mk (percentDecode v))

/-- Uppercase hex digit of a value below 16. -/
def hexDigit (n : Nat) : Char :=
  ['0', '1', '2', '3', '4', '5', '6', '7', '8', '9',
   'A', 'B', 'C', 'D', 'E', 'F'].getD n '0'

/-- Characters the form-urlencoded serializer passes through unescaped. -/
def isFormSafe (c : Char) : Bool :=
  c.isAlphanum || c = '*' || c = '-' || c = '.' || c = '_'

/-- One character of `form_urlencoded` byte-serialization: safe characters
pass, space becomes `+`, everything else becomes `%XX` (ASCII scope). -/
def formByteSerializeChar (c : Char) : List Char :=
  if isFormSafe c then [c]
  else if c = ' ' then ['+']
  else ['%', hexDigit (c.toNat / 16 % 16), hexDigit (c.toNat % 16)]

/-- `form_urlencoded` byte-serialization of a string. -/
def formSerializeStr (s : String) : String :=
  String.mk (s.data.flatMap formByteSerializeChar)

/-- The `form_urlencoded::Serializer`: each pair as `k=v`, joined by `&`. -/
def formUrlencodedSerialize (pairs : List (String × String)) : String :=
  String.intercalate "&"
    (pairs.map fun p => formSerializeStr p.1 ++ "=" ++ formSerializeStr p.2)

/-- Split a character list at the first `:`; `none` when there is no colon. -/
def splitAtColon : List Char → Option (List Char × List Char)
  | [] => none
  | c :: rest =>
    if c = ':' then some ([], rest)
    else
      match splitAtColon rest with
      | some (a, b) => some (c :: a, b)
      | none => none

/-- A parsed non-hierarchical URL: scheme plus opaque path. -/
structure Url where
  scheme : String
  path : String
deriving DecidableEq, Repr

def isSchemeStartChar (c : Char) : Bool := c.isAlpha

def isSchemeChar (c : Char) : Bool :=
  c.isAlphanum || c = '+' || c = '-' || c = '.'

/-- `Url::parse` (modelled, non-hierarchical scope): the input must have a
valid scheme followed by `:`; the rest is the path. The scheme is
lower-cased. -/
def Url.parse (s : String) : Option Url :=
  match splitAtColon s.data with
  | none => none
  | some (schemeChars, pathChars) =>
    match schemeChars with
    | [] => none
    | c0 :: restCs =>
      if isSchemeStartChar c0 && restCs.all isSchemeChar then
        some ⟨String.mk ((c0 :: restCs).map Char.toLower), String.mk pathChars⟩
      else none

/-- `Url::as_str` / `Url::into_string` (modelled scope: the identity
serialization `scheme:path`). -/
def Url.str (u : Url) : String := u.scheme ++ ":" ++ u.path

/-! ### Record model (record.rs)

`SyncGuid` is a plain wrapper around a string and is modelled as `String`. -/

/-- `BookmarkRecord` (record.rs). -/
structure BookmarkRecord where
  guid : String
  parent_guid : Option String
  has_dupe : Bool
  parent_title : Option String
  date_added : Option Int
  title : Option String
  url : Option String
  keyword : Option String
  tags : List String
deriving DecidableEq, Repr

/-- `QueryRecord` (record.rs). -/
structure QueryRecord where
  guid : String
  parent_guid : Option String
  has_dupe : Bool
  parent_title : Option String
  date_added : Option Int
  title : Option String
  url : Option String
  tag_folder_name : Option String
deriving DecidableEq, Repr

/-- `FolderRecord` (record.rs). -/
structure FolderRecord where
  guid : String
  parent_guid : Option String
  has_dupe : Bool
  parent_title : Option String
  date_added : Option Int
  title : Option String
  children : List String
deriving DecidableEq, Repr

/-- `LivemarkRecord` (record.rs). -/
structure LivemarkRecord where
  guid : String
  parent_guid : Option String
  has_dupe : Bool
  parent_title : Option String
  date_added : Option Int
  title : Option String
  feed_url : Option String
  site_url : Option String
deriving DecidableEq, Repr

/-- `SeparatorRecord` (record.rs). -/
structure SeparatorRecord where
  guid : String
  parent_guid : Option String
  has_dupe : Bool
  parent_title : Option String
  date_added : Option Int
  position : Option Int
deriving DecidableEq, Repr

/-- `BookmarkItemRecord` (record.rs). -/
inductive BookmarkItemRecord where
  | Tombstone (guid : String)
  | Bookmark (b : BookmarkRecord)
  | Query (q : QueryRecord)
  | Folder (f : FolderRecord)
  | Livemark (l : LivemarkRecord)
  | Separator (s : SeparatorRecord)
deriving DecidableEq, Repr

/-- The GUID of a typed record. -/
def recordGuid : BookmarkItemRecord → String
  | .Tombstone g => g
  | .Bookmark b => b.guid
  | .Query q => q.guid
  | .Folder f => f.guid
  | .Livemark l => l.guid
  | .Separator s => s.guid

/-- The parent GUID of a typed record (tombstones have none). -/
def recordParentGuid : BookmarkItemRecord → Option String
  | .Tombstone _ => none
  | .Bookmark b => b.parent_guid
  | .Query q => q.parent_guid
  | .Folder f => f.parent_guid
  | .Livemark l => l.parent_guid
  | .Separator s => s.parent_guid

/-- `RawBookmarkItemRecord` (record.rs): all wire fields of a non-tombstone
payload, already extracted from JSON (the serde field plumbing is library
machinery; `id` and `type` are the only required fields). -/
structure RawBookmarkItemRecord where
  id : String
  kind : String
  parent_id : Option String
  has_dupe : Option Bool
  parent_title : Option String
  date_added : Option Int
  title : Option String
  url : Option String
  keyword : Option String
  tags : Option (List String)
  tag_folder_name : Option String
  children : Option (List String)
  feed_url : Option String
  site_url : Option String
  position : Option Int
deriving DecidableEq, Repr

/-- The five reserved roots (`BookmarkRootGuid`; the enum itself lives in
`crate::storage::bookmarks`, mirrored by `BookmarkRootGuids` in the
sources). -/
inductive BookmarkRootGuid where
  | Root
  | Menu
  | Toolbar
  | Unfiled
  | Mobile
deriving DecidableEq, Repr

/-- `BookmarkRootGuid::as_guid`: the 12-character reserved GUIDs. -/
def BookmarkRootGuid.as_guid : BookmarkRootGuid → String
  | .Root => "root________"
  | .Menu => "menu________"
  | .Toolbar => "toolbar_____"
  | .Unfiled => "unfiled_____"
  | .Mobile => "mobile______"

/-- `BookmarkRootGuid::from_guid` (as in the sources' `BookmarkRootGuids`). -/
def BookmarkRootGuid.from_guid (guid : String) : Option BookmarkRootGuid :=
  if guid = "root________" then some .Root
  else if guid = "menu________" then some .Menu
  else if guid = "toolbar_____" then some .Toolbar
  else if guid = "unfiled_____" then some .Unfiled
  else if guid = "mobile______" then some .Mobile
  else none

/-- Modelled from the spec: `BookmarkRootGuid::as_sync_record_id`, the wire
aliases of the reserved roots (`menu`, `toolbar`, `unfiled`, `mobile`,
`places` for the root). The method is declared in `crate::storage::bookmarks`
outside the sources. -/
def BookmarkRootGuid.as_sync_record_id : BookmarkRootGuid → String
  | .Root => "places"
  | .Menu => "menu"
  | .Toolbar => "toolbar"
  | .Unfiled => "unfiled"
  | .Mobile => "mobile"

/-- Modelled from the spec: `BookmarkRootGuid::from_sync_record_id`, the
inverse of the wire-alias map. -/
def BookmarkRootGuid.from_sync_record_id (id : String) : Option BookmarkRootGuid :=
  if id = "places" then some .Root
  else if id = "menu" then some .Menu
  else if id = "toolbar" then some .Toolbar
  else if id = "unfiled" then some .Unfiled
  else if id = "mobile" then some .Mobile
  else none

/-- `id_to_guid` (record.rs): wire record id to Places GUID; identical except
for roots. -/
def id_to_guid (id : String) : String :=
  match BookmarkRootGuid.from_sync_record_id id with
  | some g => g.as_guid
  | none => id

/-- `guid_to_id` (record.rs): Places GUID to wire record id. -/
def guid_to_id (guid : String) : String :=
  match BookmarkRootGuid.from_guid guid with
  | some g => g.as_sync_record_id
  | none => guid

/-- Modelled from the spec: the recoverable content-error taxonomy names an
`UnsupportedKind` error for unknown record types (the error module is not
among the sources). -/
inductive RecordDecodeError where
  | UnsupportedKind
deriving DecidableEq, Repr

/-- Outcome of deserializing a raw record: a typed record, a recoverable
error result, or the effect of the source's `panic!` for unknown kinds (the
code never produces `err`; the variant exists so the spec's claimed
behaviour is statable). -/
inductive DecodeOutcome where
  | ok (r : BookmarkItemRecord)
  | err (e : RecordDecodeError)
  | panicked (msg : String)
deriving DecidableEq, Repr

/-- The `Deserialize` impl for `BookmarkItemRecord` (record.rs): dispatch on
the `type` string; unknown types hit `panic!("Unsupported bookmark type
...")`. -/
def deserializeRecord (raw : RawBookmarkItemRecord) : DecodeOutcome :=
  if raw.kind = "bookmark" then
    .ok (.Bookmark
      { guid := id_to_guid raw.id
        parent_guid := raw.parent_id.map id_to_guid
        has_dupe := raw.has_dupe.getD false
        parent_title := raw.parent_title
        date_added := raw.date_added
        title := raw.title
        url := raw.url
        keyword := raw.keyword
        tags := raw.tags.getD [] })
  else if raw.kind = "query" then
    .ok (.Query
      { guid := id_to_guid raw.id
        parent_guid := raw.parent_id.map id_to_guid
        has_dupe := raw.has_dupe.getD false
        parent_title := raw.parent_title
        date_added := raw.date_added
        title := raw.title
        url := raw.url
        tag_folder_name := raw.tag_folder_name })
  else if raw.kind = "folder" then
    .ok (.Folder
      { guid := id_to_guid raw.id
        parent_guid := raw.parent_id.map id_to_guid
        has_dupe := raw.has_dupe.getD false
        parent_title := raw.parent_title
        date_added := raw.date_added
        title := raw.title
        children := raw.children.getD [] })
  else if raw.kind = "livemark" then
    .ok (.Livemark
      { guid := id_to_guid raw.id
        parent_guid := raw.parent_id.map id_to_guid
        has_dupe := raw.has_dupe.getD false
        parent_title := raw.parent_title
        date_added := raw.date_added
        title := raw.title
        feed_url := raw.feed_url
        site_url := raw.site_url })
  else if raw.kind = "separator" then
    .ok (.Separator
      { guid := id_to_guid raw.id
        parent_guid := raw.parent_id.map id_to_guid
        has_dupe := raw.has_dupe.getD false
        parent_title := raw.parent_title
        date_added := raw.date_added
        position := raw.position })
  else
    .panicked ("Unsupported bookmark type " ++ raw.kind)

/-- A JSON value as emitted by the record serializer (the only arrays the
serializer emits are arrays of strings: `tags` and `children`). -/
inductive JsonVal where
  | null
  | bool (b : Bool)
  | num (n : Int)
  | str (s : String)
  | arr (xs : List String)
deriving DecidableEq, Repr

/-- serde serialization of an `Option<String>` field. -/
def jsonOptStr : Option String → JsonVal
  | none => .null
  | some s => .str s

/-- serde serialization of an `Option<i64>` field. -/
def jsonOptNum : Option Int → JsonVal
  | none => .null
  | some n => .num n

/-- An emitted payload: the serialized fields in emission order. -/
def Payload := List (String × JsonVal)
deriving instance DecidableEq, Repr for Payload

/-- Field lookup in an emitted payload. -/
def lookupField (p : Payload) (k : String) : Option JsonVal :=
  (p.find? (fun q => q.1 == k)).map (fun q => q.2)

/-- The `Serialize` impl for `BookmarkItemRecord` (record.rs). Queries,
livemarks and separators hit `unimplemented!`, modelled as a panic outcome.
Note `parentid` is serialized from the stored `parent_guid` directly, while
`id` goes through `guid_to_id`. -/
def serializeRecord : BookmarkItemRecord → Except String Payload
  | .Tombstone guid =>
    .ok [("id", .str (guid_to_id guid)), ("deleted", .bool true)]
  | .Bookmark b =>
    .ok [("id", .str (guid_to_id b.guid)), ("type", .str "bookmark"),
      ("parentid", jsonOptStr b.parent_guid), ("hasDupe", .bool b.has_dupe),
      ("parentName", jsonOptStr b.parent_title),
      ("dateAdded", jsonOptNum b.date_added), ("title", jsonOptStr b.title),
      ("bmkUri", jsonOptStr b.url), ("keyword", jsonOptStr b.keyword),
      ("tags", .arr b.tags)]
  | .Query _ => .error "TODO: Serialize queries"
  | .Folder f =>
    .ok [("id", .str (guid_to_id f.guid)), ("type", .str "folder"),
      ("parentid", jsonOptStr f.parent_guid), ("hasDupe", .bool f.has_dupe),
      ("parentName", jsonOptStr f.parent_title),
      ("dateAdded", jsonOptNum f.date_added), ("title", jsonOptStr f.title),
      ("children", .arr f.children)]
  | .Livemark _ => .error "TODO: Serialize livemarks"
  | .Separator _ => .error "TODO: Serialize separators"

/-! ### The mirror store (incoming.rs / store.rs)

`moz_bookmarks_synced` is keyed by `guid`; `moz_bookmarks_synced_structure`
is keyed by the child `guid`; `moz_places` is a set of URLs. All incoming
writes are `REPLACE INTO` on those keys. A `placeId` resolved through
`moz_places` is represented by the interned URL string itself. -/

/-- One `moz_bookmarks_synced` row (the `guid` key is kept outside). -/
structure MirrorRow where
  parentGuid : Option String
  serverModified : Int
  needsMerge : Bool
  isDeleted : Bool
  kind : Option SyncedBookmarkKind
  dateAdded : Option Int
  title : Option String
  placeUrl : Option String
  keyword : Option String
  feedUrl : Option String
  siteUrl : Option String
  validity : SyncedBookmarkValidity
deriving DecidableEq, Repr

/-- Modelled from the spec: the schema defaults a `REPLACE INTO` with a
column subset leaves in place (the schema file is not among the sources).
Content columns default to NULL; `validity` defaults to `Valid` (scenario S1:
a tombstone row, whose insert does not mention `validity`, reads back as
`Valid`). -/
def MirrorRow.dflt : MirrorRow :=
  { parentGuid := none, serverModified := 0, needsMerge := false,
    isDeleted := false, kind := none, dateAdded := none, title := none,
    placeUrl := none, keyword := none, feedUrl := none, siteUrl := none,
    validity := .Valid }

/-- One `moz_bookmarks_synced_structure` row for a child guid. -/
structure StructureRow where
  parentGuid : String
  position : Nat
deriving DecidableEq, Repr

/-- The store state the incoming applicator touches. -/
structure Db where
  mirror : List (String × MirrorRow)
  synced_structure : List (String × StructureRow)
  places : List String
deriving DecidableEq, Repr

def Db.empty : Db := { mirror := [], synced_structure := [], places := [] }

/-- Drop every row keyed `k`. -/
def eraseKey {α : Type} (k : String) : List (String × α) → List (String × α)
  | [] => []
  | p :: l => if p.1 = k then eraseKey k l else p :: eraseKey k l

/-- `REPLACE INTO` on an association list keyed by `k`: delete the rows with
that key, insert the new one. -/
def replaceAssoc {α : Type} (l : List (String × α)) (k : String) (v : α) :
    List (String × α) :=
  (k, v) :: eraseKey k l

/-- Keyed lookup in an association list. -/
def lookupAssoc {α : Type} (l : List (String × α)) (k : String) : Option α :=
  (l.find? (fun p => p.1 == k)).map (fun p => p.2)

/-- `NULLIF(:title, "")`: empty titles collapse to NULL. -/
def nullifEmpty : Option String → Option String
  | none => none
  | some t => if t = "" then none else some t

/-- Modelled from the spec: `maybe_truncate_title`
(`crate::storage::bookmarks`, not among the sources): truncate a title to
`TITLE_LENGTH_MAX` after normalization. -/
def maybe_truncate_title : Option String → Option String
  | none => none
  | some t => some (String.mk (t.data.take TITLE_LENGTH_MAX))

/-- `InvalidPlaceInfo` errors raised by the place-store adapter. -/
inductive InvalidPlaceInfo where
  | UrlTooLong
  | NoUrl
deriving DecidableEq, Repr

/-- `INSERT OR IGNORE INTO moz_places` keyed by the URL. -/
def insertPlace (places : List String) (u : String) : List String :=
  if u ∈ places then places else places ++ [u]

/-- `maybe_store_url` (incoming.rs): reject a missing URL (`NoUrl`) or one
longer than `URL_LENGTH_MAX` (`UrlTooLong`); otherwise intern it into
`moz_places` and return it. -/
def maybe_store_url (places : List String) :
    Option Url → Except InvalidPlaceInfo (Url × List String)
  | some url =>
    if URL_LENGTH_MAX < url.str.length then .error .UrlTooLong
    else .ok (url, insertPlace places url.str)
  | none => .error .NoUrl

/-- `maybe_store_href` (incoming.rs): parse then intern. A parse failure
propagates as an error (`Url::parse(href)?`), modelled with a distinct
error value. -/
inductive HrefError where
  | parseError
  | place (e : InvalidPlaceInfo)
deriving DecidableEq, Repr

def maybe_store_href (places : List String) :
    Option String → Except HrefError (Url × List String)
  | some href =>
    match Url.parse href with
    | none => .error .parseError
    | some url =>
      match maybe_store_url places (some url) with
      | .ok r => .ok r
      | .error e => .error (.place e)
  | none =>
    match maybe_store_url places none with
    | .ok r => .ok r
    | .error e => .error (.place e)

/-- The epilogue of `determine_query_url_and_validity` (incoming.rs): feed
the chosen `(maybe_url, validity)` through `maybe_store_url`; an interning
failure is recovered as a discarded URL with validity `Replace`. -/
def finishQueryUrl (places : List String)
    (r : Option Url × SyncedBookmarkValidity) :
    (Option Url × SyncedBookmarkValidity) × List String :=
  match maybe_store_url places r.1 with
  | .ok (u, places') => ((some u, r.2), places')
  | .error _ => ((none, .Replace), places)

/-- `determine_query_url_and_validity` (incoming.rs). The returned `Result`
is an error only when one of the two inner `Url::parse(...)?` calls fails;
otherwise it carries the URL option, the validity, and the places table
after any interning (the shared `maybe_store_url` epilogue is
`finishQueryUrl`). -/
def determine_query_url_and_validity (places : List String) (q : QueryRecord)
    (url : Url) :
    Except Unit ((Option Url × SyncedBookmarkValidity) × List String) :=
  let pairs := formUrlencodedParse url.path
  if pairs.any (fun p => p.1 == "type" && p.2 == RESULTS_AS_TAG_CONTENTS) then
    match validate_tag q.tag_folder_name with
    | some tag =>
      match Url.parse ("place:tag=" ++ tag) with
      | some u => .ok (finishQueryUrl places (some u, .Reupload))
      | none => .error ()
    | none => .ok (finishQueryUrl places (none, .Replace))
  else
    if pairs.any (fun p => p.1 == "folder") then
      if pairs.any (fun p => p.1 == "excludeItems" && p.2 == "1") then
        .ok (finishQueryUrl places (some url, .Valid))
      else
        let tail := formUrlencodedSerialize (pairs ++ [("excludeItems", "1")])
        match Url.parse ("place:" ++ tail) with
        | some u => .ok (finishQueryUrl places (some u, .Reupload))
        | none => .error ()
    else
      .ok (finishQueryUrl places (some url, .Valid))

/-- The `REPLACE INTO moz_bookmarks_synced` of `store_incoming_query`:
`placeId` resolves through `moz_places` by the stored URL (NULL URL resolves
to NULL). -/
def writeQueryRow (db : Db) (ts : Int) (q : QueryRecord)
    (storedUrl : Option Url) (validity : SyncedBookmarkValidity) : Db :=
  { db with
    mirror := replaceAssoc db.mirror q.guid
      { MirrorRow.dflt with
        parentGuid := q.parent_guid
        serverModified := ts
        needsMerge := true
        kind := some .Query
        dateAdded := q.date_added
        title := nullifEmpty (maybe_truncate_title q.title)
        validity := validity
        placeUrl := storedUrl.map Url.str } }

/-- `store_incoming_query` (incoming.rs): parse the record's URL (an
unparsable or missing URL means `Replace` with a NULL `placeId`), run the
query rewriting, and `REPLACE` the mirror row. -/
def store_incoming_query (db : Db) (ts : Int) (q : QueryRecord) :
    Except Unit Db :=
  match q.url.bind Url.parse with
  | some url =>
    match determine_query_url_and_validity db.places q url with
    | .error e => .error e
    | .ok ((storedUrl, validity), places') =>
      .ok (writeQueryRow { db with places := places' } ts q storedUrl validity)
  | none => .ok (writeQueryRow db ts q none .Replace)

/-- `iter().enumerate()` beginning at `start`. -/
def enumerate {α : Type} (start : Nat) : List α → List (Nat × α)
  | [] => []
  | a :: as => (start, a) :: enumerate (start + 1) as

/-- `store_incoming_folder` (incoming.rs): `REPLACE` the folder's mirror row,
then `REPLACE` one structure row per child, keyed by the child guid, with
positions 0..n−1. -/
def store_incoming_folder (db : Db) (ts : Int) (f : FolderRecord) : Db :=
  let db :=
    { db with
      mirror := replaceAssoc db.mirror f.guid
        { MirrorRow.dflt with
          parentGuid := f.parent_guid
          serverModified := ts
          needsMerge := true
          kind := some .Folder
          dateAdded := f.date_added
          title := nullifEmpty (maybe_truncate_title f.title) } }
  (enumerate 0 f.children).foldl
    (fun db pc =>
      { db with
        synced_structure := replaceAssoc db.synced_structure pc.2
          { parentGuid := f.guid, position := pc.1 } })
    db

/-- `store_incoming_tombstone` (incoming.rs / store.rs): `REPLACE` a mirror
row with `parentGuid` NULL, `needsMerge` 1, `dateAdded` 0, `isDeleted` 1;
the unmentioned columns keep their defaults. -/
def store_incoming_tombstone (db : Db) (ts : Int) (guid : String) : Db :=
  { db with
    mirror := replaceAssoc db.mirror guid
      { MirrorRow.dflt with
        parentGuid := none
        serverModified := ts
        needsMerge := true
        dateAdded := some 0
        isDeleted := true } }

/-! ### The applier (store.rs)

`dogear::Store::apply` wraps `update_local_items`, then
`stage_local_items_to_upload`, then clearing of the scratch tables in one
`unchecked_transaction`, committing on success and rolling back on error.
The transactional store (rusqlite) is an external collaborator: a
transaction is modelled by explicit state passing, where a rollback returns
the state the transaction started from. The three step bodies act on the
whole store state and are taken as parameters (their effects live in
store-side trigger SQL). -/

def dogearApply {S E : Type} (has_changes : S → Bool)
    (update_local_items : S → Except E S)
    (stage_local_items_to_upload : S → Except E S)
    (clear_merge_scratch : S → Except E S) (s : S) : Except E Unit × S :=
  if has_changes s = false then (.ok (), s)
  else
    match (update_local_items s).bind (fun s1 =>
        (stage_local_items_to_upload s1).bind clear_merge_scratch) with
    | .ok s' => (.ok (), s')
    | .error e => (.error e, s)

/-! ### Staging weakly-uploadable items (store.rs) -/

/-- One `moz_bookmarks` row as the staging SQL reads it. Per the source
comment, the local `dateAdded` column holds microseconds. -/
structure LocalBookmarkRow where
  id : Int
  guid : String
  dateAdded : Int
deriving DecidableEq, Repr

/-- One `mergedTree` scratch row (populated from the merger's descendants in
`update_local_items`). -/
structure MergedTreeRow where
  localGuid : Option String
  remoteGuid : Option String
  mergedGuid : String
  mergedParentGuid : String
  level : Int
  position : Int
  useRemote : Bool
  shouldUpload : Bool
deriving DecidableEq, Repr

/-- The first statement of `stage_local_items_to_upload` (store.rs): the ids
inserted into `idsToWeaklyUpload`, i.e. the local ids whose row joins a
`mergedTree` row with `useRemote` and a mirror row through `remoteGuid`,
with `b.dateAdded < v.dateAdded` compared raw (the source comment notes
`b.dateAdded` is in microseconds and `v.dateAdded` in milliseconds). A NULL
on either side of the join or comparison selects nothing. -/
def stage_weakly_upload_ids (bookmarks : List LocalBookmarkRow)
    (mergedTree : List MergedTreeRow) (mirror : List (String × MirrorRow)) :
    List Int :=
  (bookmarks.filter fun b =>
    mergedTree.any fun r =>
      r.mergedGuid == b.guid && r.useRemote &&
      (match r.remoteGuid with
       | some g =>
         match lookupAssoc mirror g with
         | some v =>
           match v.dateAdded with
           | some d => decide (b.dateAdded < d)
           | none => false
         | none => false
       | none => false)).map (fun b => b.id)

/-! ### The outgoing builder (store.rs) -/

/-- One `itemsToUpload` row as `fetch_outgoing_records` reads it (`title` and
`parentTitle` go through `IFNULL(..., "")` in the projection). -/
structure UploadRow where
  id : Int
  syncChangeCounter : Int
  guid : String
  isDeleted : Bool
  kind : Option SyncedBookmarkKind
  tagFolderName : Option String
  keyword : Option String
  url : Option String
  title : Option String
  position : Option Int
  parentGuid : Option String
  parentTitle : Option String
  dateAdded : Option Int
deriving DecidableEq, Repr

/-- One `structureToUpload` row. -/
structure StructureToUploadRow where
  guid : String
  parentId : Int
  position : Int
deriving DecidableEq, Repr

def insertByPos (r : StructureToUploadRow) :
    List StructureToUploadRow → List StructureToUploadRow
  | [] => [r]
  | x :: xs =>
    if r.position < x.position then r :: x :: xs else x :: insertByPos r xs

def sortByPos : List StructureToUploadRow → List StructureToUploadRow
  | [] => []
  | x :: xs => insertByPos x (sortByPos xs)

/-- The per-folder child list `fetch_outgoing_records` builds from
`structureToUpload ORDER BY parentId, position` (rows are unique per child
within a staged run, so the map `remove` is an ordinary lookup). -/
def childGuidsFor (rows : List StructureToUploadRow) (pid : Int) :
    List String :=
  (sortByPos (rows.filter (fun r => r.parentId == pid))).map
    (fun r => r.guid)

/-- How reading a staged row can fail: a NULL in a column read as non-NULL
(`get_checked`/`from_u8` errors), or a panic raised by the record
serializer's `unimplemented!` arms. -/
inductive OutgoingError where
  | rowError
  | panicked (msg : String)
deriving DecidableEq, Repr

/-- The loop of `fetch_outgoing_records` (store.rs): deleted rows emit
`{id, deleted: true}` tombstones; live rows are shaped by kind with
`has_dupe = true`, no keyword, no tags and no tag folder name; livemarks are
skipped; the shaped record is serialized into the outgoing payload. -/
def outgoingPayloads (structRows : List StructureToUploadRow) :
    List UploadRow → Except OutgoingError (List Payload)
  | [] => .ok []
  | row :: rest =>
    if row.isDeleted then
      match outgoingPayloads structRows rest with
      | .ok ps =>
        .ok ([("id", .str (guid_to_id row.guid)), ("deleted", .bool true)] :: ps)
      | .error e => .error e
    else
      match row.parentGuid, row.dateAdded, row.kind with
      | some parentGuid, some dateAdded, some kind =>
        let parentTitle := row.parentTitle.getD ""
        let record? : Except OutgoingError (Option BookmarkItemRecord) :=
          match kind with
          | .Bookmark =>
            match row.url with
            | some url =>
              .ok (some (.Bookmark
                { guid := row.guid, parent_guid := some parentGuid,
                  has_dupe := true, parent_title := some parentTitle,
                  date_added := some dateAdded,
                  title := some (row.title.getD ""), url := some url,
                  keyword := none, tags := [] }))
            | none => .error .rowError
          | .Query =>
            match row.url with
            | some url =>
              .ok (some (.Query
                { guid := row.guid, parent_guid := some parentGuid,
                  has_dupe := true, parent_title := some parentTitle,
                  date_added := some dateAdded,
                  title := some (row.title.getD ""), url := some url,
                  tag_folder_name := none }))
            | none => .error .rowError
          | .Folder =>
            .ok (some (.Folder
              { guid := row.guid, parent_guid := some parentGuid,
                has_dupe := true, parent_title := some parentTitle,
                date_added := some dateAdded,
                title := some (row.title.getD ""),
                children := childGuidsFor structRows row.id }))
          | .Livemark => .ok none
          | .Separator =>
            match row.position with
            | some position =>
              .ok (some (.Separator
                { guid := row.guid, parent_guid := some parentGuid,
                  has_dupe := true, parent_title := some parentTitle,
                  date_added := some dateAdded, position := some position }))
            | none => .error .rowError
        match record? with
        | .error e => .error e
        | .ok none => outgoingPayloads structRows rest
        | .ok (some record) =>
          match serializeRecord record with
          | .error msg => .error (.panicked msg)
          | .ok p =>
            match outgoingPayloads structRows rest with
            | .ok ps => .ok (p :: ps)
            | .error e => .error e
      | _, _, _ => .error .rowError

/-- `fetch_outgoing_records` (store.rs), restricted to the payload list it
accumulates. -/
def fetch_outgoing_records (structRows : List StructureToUploadRow)
    (items : List UploadRow) : Except OutgoingError (List Payload) :=
  outgoingPayloads structRows items

/-! ### Concrete inputs used to evaluate the model -/

/-- An incoming query with the legacy `type=7` URL and a valid tag folder
name (the source's `test_apply_query` vector). -/
def qType7Ex : QueryRecord :=
  { guid := "query1______", parent_guid := some "unfiled_____",
    has_dupe := false, parent_title := none, date_added := none,
    title := none, url := some "place:type=7",
    tag_folder_name := some "a-folder-name" }

/-- An incoming query with a `folder=` URL and no `excludeItems` pair (the
source's `test_apply_query` vector). -/
def qFolderEx : QueryRecord :=
  { guid := "query1______", parent_guid := some "unfiled_____",
    has_dupe := false, parent_title := none, date_added := none,
    title := none, url := some "place:folder=123", tag_folder_name := none }

/-- 65600 `a` characters. -/
def bigA : String := String.mk (List.replicate 65600 'a')

/-- A `place:` path with `folder` and `excludeItems=1` pairs whose last pair
value pushes the URL past `URL_LENGTH_MAX`. -/
def bigPath : String := "folder=1&excludeItems=1&x=" ++ bigA

def bigUrlStr : String := "place:" ++ bigPath

/-- An incoming query whose URL parses but is longer than
`URL_LENGTH_MAX`. -/
def qBigEx : QueryRecord :=
  { guid := "queryAAAAAAA", parent_guid := some "unfiled_____",
    has_dupe := false, parent_title := none, date_added := none,
    title := none, url := some bigUrlStr, tag_folder_name := none }

/-- An incoming folder with two children. -/
def fABEx : FolderRecord :=
  { guid := "folderAAAAAA", parent_guid := some "unfiled_____",
    has_dupe := false, parent_title := none, date_added := some 0,
    title := some "folder", children := ["bookmarkAAAA", "bookmarkBBBB"] }

/-- The same folder re-ingested with its second child removed. -/
def fAEx : FolderRecord := { fABEx with children := ["bookmarkAAAA"] }

/-- The store after ingesting `fABEx` and then `fAEx`. -/
def dbStaleEx : Db :=
  store_incoming_folder (store_incoming_folder Db.empty 0 fABEx) 0 fAEx

/-- A wire folder record rooted at the `menu` alias. -/
def rawMenuEx : RawBookmarkItemRecord :=
  { id := "menu", kind := "folder", parent_id := some "places",
    has_dupe := none, parent_title := none, date_added := some 0,
    title := some "menu", url := none, keyword := none, tags := none,
    tag_folder_name := none, children := some ["bookmarkAAAA"],
    feed_url := none, site_url := none, position := none }

/-- The typed record `rawMenuEx` decodes to. -/
def decMenuEx : BookmarkItemRecord :=
  .Folder
    { guid := "menu________", parent_guid := some "root________",
      has_dupe := false, parent_title := none, date_added := some 0,
      title := some "menu", children := ["bookmarkAAAA"] }

/-- A folder record whose stored parent is the reserved `menu` root. -/
def folderMenuEx : FolderRecord :=
  { guid := "folderAAAAAA", parent_guid := some "menu________",
    has_dupe := true, parent_title := none, date_added := some 0,
    title := some "f", children := [] }

/-- The payload the serializer emits for `folderMenuEx`. -/
def serializedFolderMenuEx : Payload :=
  [("id", .str "folderAAAAAA"), ("type", .str "folder"),
   ("parentid", .str "menu________"), ("hasDupe", .bool true),
   ("parentName", .null), ("dateAdded", .num 0), ("title", .str "f"),
   ("children", .arr [])]

/-- A wire record of an unknown type. -/
def rawWallpaperEx : RawBookmarkItemRecord :=
  { id := "itemAAAAAAAA", kind := "wallpaper", parent_id := some "menu",
    has_dupe := none, parent_title := none, date_added := none,
    title := none, url := none, keyword := none, tags := none,
    tag_folder_name := none, children := none, feed_url := none,
    site_url := none, position := none }

/-- A local bookmark created 2,000,000 µs (2 seconds) after the epoch. -/
def weakLocalRowEx : LocalBookmarkRow :=
  { id := 1, guid := "bookmarkAAAA", dateAdded := 2000000 }

/-- A merged-tree row where the merger chose the remote side. -/
def weakMergedRowEx : MergedTreeRow :=
  { localGuid := some "bookmarkAAAA", remoteGuid := some "bookmarkAAAA",
    mergedGuid := "bookmarkAAAA", mergedParentGuid := "unfiled_____",
    level := 1, position := 0, useRemote := true, shouldUpload := false }

/-- A mirror with the matching remote row created 3,000 ms (3 seconds) after
the epoch. -/
def weakMirrorEx : List (String × MirrorRow) :=
  [("bookmarkAAAA",
    { MirrorRow.dflt with
      kind := some .Bookmark, needsMerge := true, dateAdded := some 3000 })]

/-- A staged tombstone row. -/
def tombUploadRowEx : UploadRow :=
  { id := 1, syncChangeCounter := 1, guid := "deadbeef____",
    isDeleted := true, kind := none, tagFolderName := none, keyword := none,
    url := none, title := none, position := none, parentGuid := none,
    parentTitle := none, dateAdded := none }

/-- A staged live row of kind Query. -/
def queryUploadRowEx : UploadRow :=
  { id := 2, syncChangeCounter := 1, guid := "queryAAAAAAA",
    isDeleted := false, kind := some .Query, tagFolderName := none,
    keyword := none, url := some "place:tag=foo", title := some "q",
    position := none, parentGuid := some "unfiled_____",
    parentTitle := some "unfiled", dateAdded := some 0 }

/-- A staged live row of kind Bookmark carrying a stored keyword and tag
folder name. -/
def bmkUploadRowEx : UploadRow :=
  { id := 3, syncChangeCounter := 1, guid := "bookmarkAAAA",
    isDeleted := false, kind := some .Bookmark,
    tagFolderName := some "stored-tag", keyword := some "stored-keyword",
    url := some "http://example.com/a", title := some "A", position := none,
    parentGuid := some "unfiled_____", parentTitle := some "unfiled",
    dateAdded := some 1552183116885 }

/-- The payload the outgoing builder emits for `bmkUploadRowEx`. -/
def bmkPayloadEx : Payload :=
  [("id", .str "bookmarkAAAA"), ("type", .str "bookmark"),
   ("parentid", .str "unfiled_____"), ("hasDupe", .bool true),
   ("parentName", .str "unfiled"), ("dateAdded", .num 1552183116885),
   ("title", .str "A"), ("bmkUri", .str "http://example.com/a"),
   ("keyword", .null), ("tags", .arr [])]

/-! ## Shared lemmas about the store model -/

/-- Looking up the key just written by a `REPLACE` yields the new row. -/
theorem lookupAssoc_replaceAssoc_self {α : Type} (l : List (String × α))
    (k : String) (v : α) : lookupAssoc (replaceAssoc l k v) k = some v := by
  simp [lookupAssoc, replaceAssoc, List.find?]

/-- Erasing one key leaves every other key's find unchanged. -/
theorem find?_eraseKey_ne {α : Type} (l : List (String × α)) (k k' : String)
    (h : k' ≠ k) :
    List.find? (fun p => p.1 == k') (eraseKey k l) =
      List.find? (fun p => p.1 == k') l := by
  induction l with
  | nil => rfl
  | cons a l ih =>
    by_cases ha : a.1 = k
    · have hb : (a.1 == k') = false := by
        simp only [beq_eq_false_iff_ne, ne_eq]
        exact fun e => h (ha ▸ e).symm
      rw [show eraseKey k (a :: l) = eraseKey k l from by simp [eraseKey, ha]]
      rw [ih, List.find?]
      rw [hb]
    · rw [show eraseKey k (a :: l) = a :: eraseKey k l from by
        simp [eraseKey, ha]]
      rw [List.find?, List.find?]
      cases hb : (a.1 == k') with
      | true => rfl
      | false => exact ih

/-- A `REPLACE` leaves every other key's lookup unchanged. -/
theorem lookupAssoc_replaceAssoc_ne {α : Type} (l : List (String × α))
    (k k' : String) (v : α) (h : k' ≠ k) :
    lookupAssoc (replaceAssoc l k v) k' = lookupAssoc l k' := by
  have hk : (k == k') = false := by
    simp only [beq_eq_false_iff_ne, ne_eq]
    exact fun hkk => h hkk.symm
  unfold lookupAssoc replaceAssoc
  rw [List.find?, hk, find?_eraseKey_ne l k k' h]

/-- Erasing a key removes every row with that key. -/
theorem filter_eraseKey_key {α : Type} (l : List (String × α)) (k : String) :
    (eraseKey k l).filter (fun p => p.1 = k) = [] := by
  induction l with
  | nil => rfl
  | cons a l ih =>
    by_cases ha : a.1 = k
    · rw [show eraseKey k (a :: l) = eraseKey k l from by simp [eraseKey, ha]]
      exact ih
    · rw [show eraseKey k (a :: l) = a :: eraseKey k l from by
        simp [eraseKey, ha]]
      rw [List.filter_cons]
      simp [ha, ih]

/-- After a `REPLACE`, exactly one row carries the written key. -/
theorem replaceAssoc_key_count {α : Type} (l : List (String × α))
    (k : String) (v : α) :
    ((replaceAssoc l k v).filter (fun p => p.1 = k)).length = 1 := by
  unfold replaceAssoc
  rw [List.filter_cons]
  simp [filter_eraseKey_key]

/-- Parsing `place:` followed by anything yields scheme `place` and that
path (the first colon terminates the scheme). -/
theorem parse_place_str (r : String) :
    Url.parse ("place:" ++ r) = some ⟨"place", r⟩ := by
  obtain ⟨l⟩ := r
  rfl

/-- Serializing a `place:` URL restores `place:` followed by the path. -/
theorem url_place_str (r : String) : (⟨"place", r⟩ : Url).str = "place:" ++ r :=
  rfl

theorem place_tag_append (t : String) :
    "place:" ++ ("tag=" ++ t) = "place:tag=" ++ t :=
  (String.append_assoc "place:" "tag=" t).symm

theorem place_tag_length (t : String) :
    ("place:tag=" ++ t).length = 10 + t.length := by
  rw [String.length_append]
  rfl

theorem string_length_zero_iff (s : String) : s.length = 0 ↔ s = "" := by
  obtain ⟨l⟩ := s
  cases l with
  | nil => exact ⟨fun _ => rfl, fun _ => rfl⟩
  | cons c cs =>
    constructor
    · intro h
      exact absurd (show (c :: cs).length = 0 from h) (by simp)
    · intro h
      exact absurd (congrArg String.data h) (by simp)

/-- The `any` probe for a full key/value pair is membership of that pair. -/
theorem any_pair_eq (pairs : List (String × String)) (k v : String) :
    (pairs.any fun p => p.1 == k && p.2 == v) = true ↔ (k, v) ∈ pairs := by
  rw [List.any_eq_true]
  constructor
  · rintro ⟨p, hp, hpe⟩
    simp only [Bool.and_eq_true, beq_iff_eq] at hpe
    obtain ⟨h1, h2⟩ := hpe
    have hpkv : p = (k, v) := by cases p; simp_all
    exact hpkv ▸ hp
  · intro h
    exact ⟨(k, v), h, by simp⟩

/-- The `any` probe for a key alone is membership of some pair with it. -/
theorem any_key_eq (pairs : List (String × String)) (k : String) :
    (pairs.any fun p => p.1 == k) = true ↔ ∃ v, (k, v) ∈ pairs := by
  rw [List.any_eq_true]
  constructor
  · rintro ⟨p, hp, hpe⟩
    simp only [beq_iff_eq] at hpe
    exact ⟨p.2, by rw [← hpe]; simpa using hp⟩
  · rintro ⟨v, hv⟩
    exact ⟨(k, v), hv, by simp⟩

/-- `maybe_store_url` on a URL within `URL_LENGTH_MAX` interns it. -/
theorem maybe_store_url_ok (places : List String) (u : Url)
    (h : ¬ URL_LENGTH_MAX < u.str.length) :
    maybe_store_url places (some u) = .ok (u, insertPlace places u.str) := by
  show (if URL_LENGTH_MAX < u.str.length then
      (Except.error InvalidPlaceInfo.UrlTooLong :
        Except InvalidPlaceInfo (Url × List String))
    else .ok (u, insertPlace places u.str)) = _
  rw [if_neg h]

/-- `maybe_store_url` rejects an over-long URL. -/
theorem maybe_store_url_too_long (places : List String) (u : Url)
    (h : URL_LENGTH_MAX < u.str.length) :
    maybe_store_url places (some u) = .error .UrlTooLong := by
  show (if URL_LENGTH_MAX < u.str.length then
      (Except.error InvalidPlaceInfo.UrlTooLong :
        Except InvalidPlaceInfo (Url × List String))
    else .ok (u, insertPlace places u.str)) = _
  rw [if_pos h]

/-- Interning a URL within `URL_LENGTH_MAX` succeeds and keeps it. -/
theorem finishQueryUrl_ok (places : List String) (u : Url)
    (v : SyncedBookmarkValidity) (h : ¬ URL_LENGTH_MAX < u.str.length) :
    finishQueryUrl places (some u, v) =
      ((some u, v), insertPlace places u.str) := by
  unfold finishQueryUrl
  rw [maybe_store_url_ok places u h]

/-- Interning an over-long URL discards it with validity `Replace`. -/
theorem finishQueryUrl_too_long (places : List String) (u : Url)
    (v : SyncedBookmarkValidity) (h : URL_LENGTH_MAX < u.str.length) :
    finishQueryUrl places (some u, v) = ((none, .Replace), places) := by
  unfold finishQueryUrl
  rw [maybe_store_url_too_long places u h]

/-- Interning a missing URL discards it with validity `Replace`. -/
theorem finishQueryUrl_no_url (places : List String)
    (v : SyncedBookmarkValidity) :
    finishQueryUrl places (none, v) = ((none, .Replace), places) := rfl

/-- Running `store_incoming_query` once the URL parse and the rewrite
decision are known. -/
theorem store_incoming_query_eq (db : Db) (ts : Int) (q : QueryRecord)
    (url : Url) (res : (Option Url × SyncedBookmarkValidity) × List String)
    (hb : q.url.bind Url.parse = some url)
    (hdet : determine_query_url_and_validity db.places q url = .ok res) :
    store_incoming_query db ts q =
      .ok (writeQueryRow { db with places := res.2 } ts q res.1.1 res.1.2) := by
  simp only [store_incoming_query, hb]
  rw [hdet]

/-! ## C1 — the `type=7` query rewrite -/

/-- C1: for an incoming query whose URL parses and whose path holds a
form-urlencoded `type=7` pair, the mirror row stores exactly
`place:tag={t}` with validity `Reupload` when the record's tag folder name
trims to a non-empty string of length at most `TAG_LENGTH_MAX`; otherwise
the URL is discarded (NULL) with validity `Replace`. -/
theorem store_incoming_query_type7 (db : Db) (ts : Int) (q : QueryRecord)
    (s : String) (url : Url) (hu : q.url = some s)
    (hp : Url.parse s = some url)
    (h7 : ("type", "7") ∈ formUrlencodedParse url.path) :
    ∃ db', store_incoming_query db ts q = .ok db' ∧
      ∃ row, lookupAssoc db'.mirror q.guid = some row ∧
        ((∀ raw, q.tag_folder_name = some raw → rustTrim raw ≠ "" →
            (rustTrim raw).length ≤ TAG_LENGTH_MAX →
            row.placeUrl = some ("place:tag=" ++ rustTrim raw) ∧
            row.validity = .Reupload) ∧
         ((q.tag_folder_name = none ∨
            ∃ raw, q.tag_folder_name = some raw ∧
              (rustTrim raw = "" ∨ TAG_LENGTH_MAX < (rustTrim raw).length)) →
          row.placeUrl = none ∧ row.validity = .Replace)) := by
  have hb : q.url.bind Url.parse = some url := by rw [hu]; simpa using hp
  have hany : ((formUrlencodedParse url.path).any
      fun p => p.1 == "type" && p.2 == RESULTS_AS_TAG_CONTENTS) = true :=
    (any_pair_eq _ "type" RESULTS_AS_TAG_CONTENTS).mpr h7
  cases hvt : validate_tag q.tag_folder_name with
  | some tag =>
    obtain ⟨raw0, hqt, htag, hne0, hle⟩ : ∃ raw0, q.tag_folder_name = some raw0 ∧
        rustTrim raw0 = tag ∧ ¬ (rustTrim raw0).length = 0 ∧
        (rustTrim raw0).length ≤ TAG_LENGTH_MAX := by
      cases hqt : q.tag_folder_name with
      | none => rw [hqt] at hvt; exact absurd hvt (by simp [validate_tag])
      | some raw0 =>
        rw [hqt] at hvt
        simp only [validate_tag] at hvt
        by_cases hcond : (rustTrim raw0).length = 0 ∨
            TAG_LENGTH_MAX < (rustTrim raw0).length
        · rw [if_pos hcond] at hvt; cases hvt
        · rw [if_neg hcond] at hvt
          push_neg at hcond
          exact ⟨raw0, rfl, Option.some.inj hvt, hcond.1, hcond.2⟩
    have h2 : tag.length ≤ 100 := by rw [← htag]; exact hle
    have hlenurl : ¬ URL_LENGTH_MAX <
        (⟨"place", "tag=" ++ tag⟩ : Url).str.length := by
      intro hcontra
      have hcontra2 : 65536 < ("place:tag=" ++ tag).length := hcontra
      rw [place_tag_length tag] at hcontra2
      omega
    have hdet : determine_query_url_and_validity db.places q url =
        .ok (finishQueryUrl db.places (some ⟨"place", "tag=" ++ tag⟩,
          .Reupload)) := by
      simp only [determine_query_url_and_validity]
      rw [if_pos hany, hvt]
      rfl
    rw [finishQueryUrl_ok db.places _ .Reupload hlenurl] at hdet
    have hstore : store_incoming_query db ts q =
        .ok (writeQueryRow
          { db with places :=
              insertPlace db.places (⟨"place", "tag=" ++ tag⟩ : Url).str }
          ts q (some ⟨"place", "tag=" ++ tag⟩) .Reupload) := by
      simp only [store_incoming_query, hb]
      rw [hdet]
    refine ⟨_, hstore, _, lookupAssoc_replaceAssoc_self _ _ _, ?_, ?_⟩
    · intro raw hraw _ _
      have : raw = raw0 := by
        rw [hqt] at hraw
        exact (Option.some.inj hraw).symm
      subst this
      rw [htag]
      exact ⟨rfl, rfl⟩
    · rintro (hnone | ⟨raw, hraw, hbad⟩)
      · rw [hqt] at hnone; cases hnone
      · rw [hqt] at hraw
        obtain rfl : raw0 = raw := Option.some.inj hraw
        rw [htag] at hbad
        rcases hbad with hbad | hbad
        · exact absurd ((string_length_zero_iff tag).mpr hbad) (htag ▸ hne0)
        · have hb3 : 100 < tag.length := hbad
          omega
  | none =>
    have hdet : determine_query_url_and_validity db.places q url =
        .ok (finishQueryUrl db.places (none, .Replace)) := by
      simp only [determine_query_url_and_validity]
      rw [if_pos hany, hvt]
    rw [finishQueryUrl_no_url db.places .Replace] at hdet
    have hstore : store_incoming_query db ts q =
        .ok (writeQueryRow { db with places := db.places } ts q none
          .Replace) := by
      simp only [store_incoming_query, hb]
      rw [hdet]
    refine ⟨_, hstore, _, lookupAssoc_replaceAssoc_self _ _ _, ?_, ?_⟩
    · intro raw hraw htrim hlen
      exfalso
      rw [hraw] at hvt
      simp only [validate_tag] at hvt
      rw [if_neg (by
        push_neg
        refine ⟨fun h0 => htrim ((string_length_zero_iff _).mp h0), hlen⟩)] at hvt
      cases hvt
    · intro _
      exact ⟨rfl, rfl⟩

/-- Applies C1 to the source's `test_apply_query` vector `place:type=7` with
tag folder name `a-folder-name`. -/
theorem store_incoming_query_type7_witness :
    ∃ db', store_incoming_query Db.empty 0 qType7Ex = .ok db' ∧
      ∃ row, lookupAssoc db'.mirror qType7Ex.guid = some row ∧
        ((∀ raw, qType7Ex.tag_folder_name = some raw → rustTrim raw ≠ "" →
            (rustTrim raw).length ≤ TAG_LENGTH_MAX →
            row.placeUrl = some ("place:tag=" ++ rustTrim raw) ∧
            row.validity = .Reupload) ∧
         ((qType7Ex.tag_folder_name = none ∨
            ∃ raw, qType7Ex.tag_folder_name = some raw ∧
              (rustTrim raw = "" ∨ TAG_LENGTH_MAX < (rustTrim raw).length)) →
          row.placeUrl = none ∧ row.validity = .Replace)) :=
  store_incoming_query_type7 Db.empty 0 qType7Ex "place:type=7"
    ⟨"place", "type=7"⟩ rfl (by decide) (by decide)

/-- The rewrite decision for a query URL with a `folder` pair and an
`excludeItems=1` pair already present: keep the URL, validity `Valid`,
subject to interning. -/
theorem determine_folder_excl (places : List String) (q : QueryRecord)
    (url : Url)
    (hany7 : ((formUrlencodedParse url.path).any
      fun p => p.1 == "type" && p.2 == RESULTS_AS_TAG_CONTENTS) = false)
    (hanyf : ((formUrlencodedParse url.path).any
      fun p => p.1 == "folder") = true)
    (hanyx : ((formUrlencodedParse url.path).any
      fun p => p.1 == "excludeItems" && p.2 == "1") = true) :
    determine_query_url_and_validity places q url =
      .ok (finishQueryUrl places (some url, .Valid)) := by
  simp only [determine_query_url_and_validity]
  rw [if_neg (by simp [hany7]), if_pos hanyf, if_pos hanyx]

/-! ## C2 — the `folder=` query rewrite -/

/-- C2 (amended): for an incoming query whose URL parses, whose path holds a
`folder` pair and no `type=7` pair: with `excludeItems=1` already present
the URL is stored unchanged with validity `Valid`, otherwise the pairs are
re-serialized with `excludeItems=1` appended and stored with validity
`Reupload` — in both cases provided the resulting URL is within
`URL_LENGTH_MAX`; an over-long URL is discarded (NULL) with validity
`Replace`. -/
theorem store_incoming_query_folder (db : Db) (ts : Int) (q : QueryRecord)
    (s : String) (url : Url) (hu : q.url = some s)
    (hp : Url.parse s = some url)
    (h7 : ("type", "7") ∉ formUrlencodedParse url.path)
    (hf : ∃ v, ("folder", v) ∈ formUrlencodedParse url.path) :
    ∃ db', store_incoming_query db ts q = .ok db' ∧
      ∃ row, lookupAssoc db'.mirror q.guid = some row ∧
        ((("excludeItems", "1") ∈ formUrlencodedParse url.path →
            (url.str.length ≤ URL_LENGTH_MAX →
              row.placeUrl = some url.str ∧ row.validity = .Valid) ∧
            (URL_LENGTH_MAX < url.str.length →
              row.placeUrl = none ∧ row.validity = .Replace)) ∧
         (("excludeItems", "1") ∉ formUrlencodedParse url.path →
            (("place:" ++ formUrlencodedSerialize
                (formUrlencodedParse url.path ++
                  [("excludeItems", "1")])).length ≤ URL_LENGTH_MAX →
              row.placeUrl = some ("place:" ++ formUrlencodedSerialize
                (formUrlencodedParse url.path ++ [("excludeItems", "1")])) ∧
              row.validity = .Reupload) ∧
            (URL_LENGTH_MAX < ("place:" ++ formUrlencodedSerialize
                (formUrlencodedParse url.path ++
                  [("excludeItems", "1")])).length →
              row.placeUrl = none ∧ row.validity = .Replace))) := by
  have hb : q.url.bind Url.parse = some url := by rw [hu]; simpa using hp
  have hany7 : ((formUrlencodedParse url.path).any
      fun p => p.1 == "type" && p.2 == RESULTS_AS_TAG_CONTENTS) = false :=
    Bool.eq_false_iff.mpr
      (fun ht => h7 ((any_pair_eq _ "type" RESULTS_AS_TAG_CONTENTS).mp ht))
  have hanyf : ((formUrlencodedParse url.path).any
      fun p => p.1 == "folder") = true := (any_key_eq _ "folder").mpr hf
  by_cases hexcl : ("excludeItems", "1") ∈ formUrlencodedParse url.path
  · have hanyx : ((formUrlencodedParse url.path).any
        fun p => p.1 == "excludeItems" && p.2 == "1") = true :=
      (any_pair_eq _ "excludeItems" "1").mpr hexcl
    have hdet0 : determine_query_url_and_validity db.places q url =
        .ok (finishQueryUrl db.places (some url, .Valid)) := by
      simp only [determine_query_url_and_validity]
      rw [if_neg (by simp [hany7]), if_pos hanyf, if_pos hanyx]
    by_cases hlen : URL_LENGTH_MAX < url.str.length
    · rw [finishQueryUrl_too_long db.places url .Valid hlen] at hdet0
      have hstore : store_incoming_query db ts q =
          .ok (writeQueryRow { db with places := db.places } ts q none
            .Replace) := by
        simp only [store_incoming_query, hb]
        rw [hdet0]
      refine ⟨_, hstore, _, lookupAssoc_replaceAssoc_self _ _ _, ?_, ?_⟩
      · intro _
        exact ⟨fun hle => absurd hlen (by omega), fun _ => ⟨rfl, rfl⟩⟩
      · intro hnot
        exact absurd hexcl hnot
    · rw [finishQueryUrl_ok db.places url .Valid hlen] at hdet0
      have hstore : store_incoming_query db ts q =
          .ok (writeQueryRow
            { db with places := insertPlace db.places url.str } ts q
            (some url) .Valid) := by
        simp only [store_incoming_query, hb]
        rw [hdet0]
      refine ⟨_, hstore, _, lookupAssoc_replaceAssoc_self _ _ _, ?_, ?_⟩
      · intro _
        exact ⟨fun _ => ⟨rfl, rfl⟩, fun hgt => absurd hgt hlen⟩
      · intro hnot
        exact absurd hexcl hnot
  · have hanyx : ((formUrlencodedParse url.path).any
        fun p => p.1 == "excludeItems" && p.2 == "1") = false :=
      Bool.eq_false_iff.mpr
        (fun ht => hexcl ((any_pair_eq _ "excludeItems" "1").mp ht))
    set T := formUrlencodedSerialize
      (formUrlencodedParse url.path ++ [("excludeItems", "1")]) with hT
    have hdet0 : determine_query_url_and_validity db.places q url =
        .ok (finishQueryUrl db.places (some ⟨"place", T⟩, .Reupload)) := by
      simp only [determine_query_url_and_validity]
      rw [if_neg (by simp [hany7]), if_pos hanyf, if_neg (by simp [hanyx])]
      rfl
    by_cases hlen : URL_LENGTH_MAX < ("place:" ++ T).length
    · rw [finishQueryUrl_too_long db.places ⟨"place", T⟩ .Reupload hlen]
        at hdet0
      have hstore : store_incoming_query db ts q =
          .ok (writeQueryRow { db with places := db.places } ts q none
            .Replace) := by
        simp only [store_incoming_query, hb]
        rw [hdet0]
      refine ⟨_, hstore, _, lookupAssoc_replaceAssoc_self _ _ _, ?_, ?_⟩
      · intro hmem
        exact absurd hmem hexcl
      · intro _
        exact ⟨fun hle => absurd hlen (by omega), fun _ => ⟨rfl, rfl⟩⟩
    · rw [finishQueryUrl_ok db.places ⟨"place", T⟩ .Reupload hlen] at hdet0
      have hstore : store_incoming_query db ts q =
          .ok (writeQueryRow
            { db with places := insertPlace db.places ("place:" ++ T) } ts q
            (some ⟨"place", T⟩) .Reupload) := by
        simp only [store_incoming_query, hb]
        rw [hdet0]
        rfl
      refine ⟨_, hstore, _, lookupAssoc_replaceAssoc_self _ _ _, ?_, ?_⟩
      · intro hmem
        exact absurd hmem hexcl
      · intro _
        exact ⟨fun _ => ⟨rfl, rfl⟩, fun hgt => absurd hgt hlen⟩

/-- Applies C2 to the source's `test_apply_query` vector `place:folder=123`:
no `excludeItems=1` pair is present and the appended URL is short, so the
Reupload branch with the re-serialized URL applies. -/
theorem store_incoming_query_folder_witness :
    ∃ db', store_incoming_query Db.empty 0 qFolderEx = .ok db' ∧
      ∃ row, lookupAssoc db'.mirror qFolderEx.guid = some row ∧
        ((("excludeItems", "1") ∈ formUrlencodedParse "folder=123" →
            (("place:folder=123" : String).length ≤ URL_LENGTH_MAX →
              row.placeUrl = some "place:folder=123" ∧
              row.validity = .Valid) ∧
            (URL_LENGTH_MAX < ("place:folder=123" : String).length →
              row.placeUrl = none ∧ row.validity = .Replace)) ∧
         (("excludeItems", "1") ∉ formUrlencodedParse "folder=123" →
            (("place:" ++ formUrlencodedSerialize
                (formUrlencodedParse "folder=123" ++
                  [("excludeItems", "1")])).length ≤ URL_LENGTH_MAX →
              row.placeUrl = some ("place:" ++ formUrlencodedSerialize
                (formUrlencodedParse "folder=123" ++
                  [("excludeItems", "1")])) ∧
              row.validity = .Reupload) ∧
            (URL_LENGTH_MAX < ("place:" ++ formUrlencodedSerialize
                (formUrlencodedParse "folder=123" ++
                  [("excludeItems", "1")])).length →
              row.placeUrl = none ∧ row.validity = .Replace))) :=
  store_incoming_query_folder Db.empty 0 qFolderEx "place:folder=123"
    ⟨"place", "folder=123"⟩ rfl (by decide) (by decide)
    ⟨"123", by decide⟩

/-- Splitting a separator-free chunk yields that single chunk. -/
theorem splitOnAmp_no_amp (l : List Char) (h : '&' ∉ l) :
    splitOnAmp l = [l] := by
  induction l with
  | nil => rfl
  | cons c rest ih =>
    have hc : ¬ c = '&' := fun e => h (e ▸ List.mem_cons_self _ _)
    simp only [splitOnAmp, if_neg hc,
      ih (fun hm => h (List.mem_cons_of_mem _ hm))]

/-- Splitting after a separator-free chunk peels that chunk off. -/
theorem splitOnAmp_append (l₁ l₂ : List Char) (h : '&' ∉ l₁) :
    splitOnAmp (l₁ ++ '&' :: l₂) = l₁ :: splitOnAmp l₂ := by
  induction l₁ with
  | nil => simp [splitOnAmp]
  | cons c rest ih =>
    have hc : ¬ c = '&' := fun e => h (e ▸ List.mem_cons_self _ _)
    have ih2 := ih (fun hm => h (List.mem_cons_of_mem _ hm))
    show (if c = '&' then [] :: splitOnAmp (rest ++ '&' :: l₂)
      else match splitOnAmp (rest ++ '&' :: l₂) with
        | [] => [[c]]
        | g :: gs => (c :: g) :: gs) = (c :: rest) :: splitOnAmp l₂
    rw [if_neg hc, ih2]

/-- Percent-decoding is the identity on a run of `a`s. -/
theorem percentDecode_replicate_a (n : Nat) :
    percentDecode (List.replicate n 'a') = List.replicate n 'a' := by
  induction n with
  | zero => rfl
  | succ n ih =>
    rw [List.replicate_succ]
    show 'a' :: percentDecode (List.replicate n 'a') = _
    rw [ih]

/-- The over-long query path parses into its three pairs. -/
theorem bigPath_parse :
    formUrlencodedParse bigPath =
      [("folder", "1"), ("excludeItems", "1"), ("x", bigA)] := by
  have hnoamp3 : '&' ∉ "x=".data ++ List.replicate 65600 'a' := by
    intro hm
    rcases List.mem_append.mp hm with hm | hm
    · exact absurd hm (by decide)
    · exact absurd (List.eq_of_mem_replicate hm) (by decide)
  have hdata : bigPath.data =
      "folder=1".data ++ '&' :: ("excludeItems=1".data ++ '&' ::
        ("x=".data ++ List.replicate 65600 'a')) := rfl
  unfold formUrlencodedParse
  rw [hdata, splitOnAmp_append _ _ (by decide),
    splitOnAmp_append _ _ (by decide), splitOnAmp_no_amp _ hnoamp3]
  show [("folder", "1"), ("excludeItems", "1"),
    ("x", String.mk (percentDecode (List.replicate 65600 'a')))] =
    [("folder", "1"), ("excludeItems", "1"), ("x", bigA)]
  rw [percentDecode_replicate_a]
  rfl

/-- On the over-long input the claim's preconditions hold (a `folder` pair,
an `excludeItems=1` pair, no `type=7` pair, a parsing URL), yet the stored
row discards the URL with validity `Replace` instead of keeping it with
validity `Valid`: interning fails on the length limit. -/
theorem query_url_too_long_cex :
    ("folder", "1") ∈ formUrlencodedParse bigPath ∧
    ("excludeItems", "1") ∈ formUrlencodedParse bigPath ∧
    ("type", "7") ∉ formUrlencodedParse bigPath ∧
    qBigEx.url = some bigUrlStr ∧
    Url.parse bigUrlStr = some ⟨"place", bigPath⟩ ∧
    URL_LENGTH_MAX < bigUrlStr.length ∧
    ((store_incoming_query Db.empty 0 qBigEx).toOption.bind
        (fun db => lookupAssoc db.mirror "queryAAAAAAA")).map
        (fun r => (r.placeUrl, r.validity)) =
      some ((none : Option String), SyncedBookmarkValidity.Replace) ∧
    some ((none : Option String), SyncedBookmarkValidity.Replace) ≠
      some (some bigUrlStr, SyncedBookmarkValidity.Valid) := by
  have hpairs := bigPath_parse
  have hlen : URL_LENGTH_MAX < bigUrlStr.length := by
    have h1 : bigUrlStr.length = 6 + bigPath.length := by
      show ("place:" ++ bigPath).length = _
      rw [String.length_append]
      rw [show ("place:" : String).length = 6 from rfl]
    have h2 : bigPath.length = 26 + 65600 := by
      show ("folder=1&excludeItems=1&x=" ++ bigA).length = _
      rw [String.length_append]
      have h3 : bigA.length = 65600 := List.length_replicate 65600 'a'
      have h4 : ("folder=1&excludeItems=1&x=" : String).length = 26 := rfl
      omega
    rw [h1, h2]
    show 65536 < 6 + (26 + 65600)
    omega
  have hpath : (⟨"place", bigPath⟩ : Url).path = bigPath := rfl
  have hany7 : ((formUrlencodedParse bigPath).any
      fun p => p.1 == "type" && p.2 == RESULTS_AS_TAG_CONTENTS) = false := by
    rw [hpairs]
    rfl
  have hanyf : ((formUrlencodedParse bigPath).any
      fun p => p.1 == "folder") = true := by
    rw [hpairs]
    rfl
  have hanyx : ((formUrlencodedParse bigPath).any
      fun p => p.1 == "excludeItems" && p.2 == "1") = true := by
    rw [hpairs]
    rfl
  have hb : qBigEx.url.bind Url.parse = some ⟨"place", bigPath⟩ := by
    show Url.parse bigUrlStr = _
    exact parse_place_str bigPath
  have hlenurl : URL_LENGTH_MAX < (⟨"place", bigPath⟩ : Url).str.length := hlen
  have hdet0 := determine_folder_excl Db.empty.places qBigEx
    ⟨"place", bigPath⟩ hany7 hanyf hanyx
  rw [finishQueryUrl_too_long Db.empty.places ⟨"place", bigPath⟩ .Valid
    hlenurl] at hdet0
  have hstore : store_incoming_query Db.empty 0 qBigEx =
      .ok (writeQueryRow { Db.empty with places := Db.empty.places } 0 qBigEx
        none .Replace) :=
    store_incoming_query_eq Db.empty 0 qBigEx ⟨"place", bigPath⟩
      ((none, .Replace), Db.empty.places) hb hdet0
  refine ⟨?_, ?_, ?_, rfl, parse_place_str bigPath, hlen, ?_, by simp⟩
  · rw [hpairs]; decide
  · rw [hpairs]; decide
  · rw [hpairs]; decide
  · rw [hstore]
    rfl

/-! ## C3 — atomicity of the apply transaction -/

/-- C3: `dogear::Store::apply` runs `update_local_items`, the upload staging
and the scratch-table cleanup in one transaction: when every step succeeds
the composed result is committed, and when any step fails the store is left
in its pre-apply state. -/
theorem dogearApply_atomic {S E : Type} (has_changes : S → Bool)
    (update_local_items stage_items clear_scratch : S → Except E S) (st : S)
    (hchg : has_changes st = true) :
    (∀ st', (update_local_items st).bind (fun s1 =>
        (stage_items s1).bind clear_scratch) = .ok st' →
      dogearApply has_changes update_local_items stage_items clear_scratch st =
        (.ok (), st')) ∧
    (∀ e, (update_local_items st).bind (fun s1 =>
        (stage_items s1).bind clear_scratch) = .error e →
      dogearApply has_changes update_local_items stage_items clear_scratch st =
        (.error e, st)) := by
  constructor <;> intro x h <;> simp [dogearApply, hchg, h]

/-- Applies C3 at a concrete store: three succeeding steps commit the
composed state, and a failing step leaves the initial state. -/
theorem dogearApply_atomic_witness :
    ((fun _ : Nat => true) 1 = true) ∧
    dogearApply (fun _ => true) (fun n => .ok (n + 1))
      (fun n => (.ok (n * 2) : Except Unit Nat)) (fun n => .ok n) 1 =
      (.ok (), 4) :=
  ⟨rfl, (dogearApply_atomic (fun _ => true) (fun n => .ok (n + 1))
    (fun n => (.ok (n * 2) : Except Unit Nat)) (fun n => .ok n) 1 rfl).1 4 rfl⟩

/-! ## C6 — the tombstone mirror row -/

/-- C6 (amended): ingesting a tombstone leaves exactly one mirror row for the
GUID, with `isDeleted` and `needsMerge` set, no parent, validity `Valid`,
`dateAdded` written as `0` (not NULL), and the remaining content fields
NULL. -/
theorem store_incoming_tombstone_row (db : Db) (ts : Int) (guid : String) :
    lookupAssoc (store_incoming_tombstone db ts guid).mirror guid =
      some { parentGuid := none, serverModified := ts, needsMerge := true,
             isDeleted := true, kind := none, dateAdded := some 0,
             title := none, placeUrl := none, keyword := none,
             feedUrl := none, siteUrl := none, validity := .Valid } ∧
    ((store_incoming_tombstone db ts guid).mirror.filter
        (fun p => p.1 = guid)).length = 1 := by
  exact ⟨lookupAssoc_replaceAssoc_self _ _ _, replaceAssoc_key_count _ _ _⟩

/-- The tombstone scenario at a concrete input: the stored `dateAdded` is
the integer 0, not NULL, contradicting the claim that every content field is
NULL. -/
theorem tombstone_date_added_not_null_cex :
    (lookupAssoc (store_incoming_tombstone Db.empty 123 "deadbeef____").mirror
        "deadbeef____").map MirrorRow.dateAdded = some (some 0) ∧
    some (some (0 : Int)) ≠ some (Option.none (α := Int)) :=
  ⟨rfl, by decide⟩

/-! ## C9 — decoding an unknown record type -/

/-- C9 (amended): deserializing a non-tombstone payload whose `type` is not
one of the five known kinds panics with "Unsupported bookmark type ..."
(aborting the sync) instead of returning a recoverable error result. -/
theorem deserializeRecord_unknown_kind (raw : RawBookmarkItemRecord)
    (h : raw.kind ∉
      (["bookmark", "query", "folder", "livemark", "separator"] :
        List String)) :
    deserializeRecord raw =
      .panicked ("Unsupported bookmark type " ++ raw.kind) := by
  simp only [List.mem_cons, List.not_mem_nil, or_false, not_or] at h
  obtain ⟨h1, h2, h3, h4, h5⟩ := h
  simp [deserializeRecord, h1, h2, h3, h4, h5]

/-- Applies C9 to a record of type `wallpaper`. -/
theorem deserializeRecord_unknown_kind_witness :
    ("wallpaper" ∉
      (["bookmark", "query", "folder", "livemark", "separator"] :
        List String)) ∧
    deserializeRecord rawWallpaperEx =
      .panicked "Unsupported bookmark type wallpaper" :=
  ⟨by decide, deserializeRecord_unknown_kind rawWallpaperEx (by decide)⟩

/-- Decoding the unknown type `wallpaper` does not produce the claimed
recoverable `UnsupportedKind` error result; it panics. -/
theorem decode_unknown_kind_no_error_result_cex :
    deserializeRecord rawWallpaperEx ≠ .err .UnsupportedKind ∧
    deserializeRecord rawWallpaperEx =
      .panicked "Unsupported bookmark type wallpaper" :=
  ⟨by decide, rfl⟩

/-! ## C5 — reserved-root GUID translation in the codec -/

/-- C5 (amended): decoding translates both the wire `id` and any `parentid`
through the alias map; encoding translates only the `id`, while the
`parentid` field (when present) is emitted exactly as stored. -/
theorem codec_root_guid_translation :
    (∀ raw r, deserializeRecord raw = .ok r →
        recordGuid r = id_to_guid raw.id ∧
        recordParentGuid r = raw.parent_id.map id_to_guid) ∧
    (∀ rec p, serializeRecord rec = .ok p →
        lookupField p "id" = some (.str (guid_to_id (recordGuid rec))) ∧
        ∀ v, lookupField p "parentid" = some v →
          v = jsonOptStr (recordParentGuid rec)) := by
  constructor
  · intro raw r h
    unfold deserializeRecord at h
    split_ifs at h <;> cases h <;> exact ⟨rfl, rfl⟩
  · intro rec p h
    cases rec with
    | Tombstone g =>
      simp only [serializeRecord, Except.ok.injEq] at h
      subst h
      exact ⟨rfl, fun v hv => by cases hv⟩
    | Bookmark b =>
      simp only [serializeRecord, Except.ok.injEq] at h
      subst h
      exact ⟨rfl, fun v hv => (Option.some.inj hv).symm⟩
    | Query q => simp [serializeRecord] at h
    | Folder f =>
      simp only [serializeRecord, Except.ok.injEq] at h
      subst h
      exact ⟨rfl, fun v hv => (Option.some.inj hv).symm⟩
    | Livemark l => simp [serializeRecord] at h
    | Separator s => simp [serializeRecord] at h

/-- Applies C5: the wire `menu`/`places` aliases decode to the reserved
GUIDs, and the encoded `parentid` of a folder stored under the `menu` root
is the reserved GUID itself. -/
theorem codec_root_guid_translation_witness :
    (recordGuid decMenuEx = id_to_guid "menu" ∧
     recordParentGuid decMenuEx = (some "places").map id_to_guid) ∧
    JsonVal.str "menu________" = jsonOptStr (recordParentGuid (.Folder folderMenuEx)) :=
  ⟨codec_root_guid_translation.1 rawMenuEx decMenuEx rfl,
   (codec_root_guid_translation.2 (.Folder folderMenuEx)
      serializedFolderMenuEx rfl).2 (.str "menu________") rfl⟩

/-- Encoding a folder whose parent is the reserved `menu` root emits
`parentid = "menu________"`, not the reverse-translated alias `menu`. -/
theorem encode_parentid_untranslated_cex :
    serializeRecord (.Folder folderMenuEx) = .ok serializedFolderMenuEx ∧
    lookupField serializedFolderMenuEx "parentid" =
      some (.str "menu________") ∧
    guid_to_id "menu________" = "menu" ∧
    JsonVal.str "menu________" ≠ JsonVal.str "menu" :=
  ⟨rfl, rfl, rfl, by decide⟩

/-! ## C7 — weak-upload staging compares mismatched time units -/

/-- C7: the local bookmark was created at instant 2,000 ms (its `dateAdded`
column holds 2,000,000 µs), the remote mirror row at instant 3,000 ms — the
local creation instant is earlier — and the merger chose the remote side;
yet the staging SQL's raw `b.dateAdded < v.dateAdded` comparison (µs against
ms) inserts nothing into `idsToWeaklyUpload`. -/
theorem stage_weakly_upload_unit_mismatch :
    weakLocalRowEx.dateAdded / 1000 = 2000 ∧
    (lookupAssoc weakMirrorEx "bookmarkAAAA").map MirrorRow.dateAdded =
      some (some 3000) ∧
    (2000 : Int) < 3000 ∧
    weakMergedRowEx.useRemote = true ∧
    stage_weakly_upload_ids [weakLocalRowEx] [weakMergedRowEx] weakMirrorEx =
      [] := by
  refine ⟨rfl, rfl, by decide, rfl, rfl⟩

/-! ## C8 — outgoing emission of staged query rows -/

/-- C8: the outgoing builder, given a staged tombstone followed by a staged
live row of kind Query, aborts with the serializer's unimplemented-queries
panic instead of emitting a query payload. -/
theorem fetch_outgoing_query_panics :
    fetch_outgoing_records [] [tombUploadRowEx, queryUploadRowEx] =
      .error (.panicked "TODO: Serialize queries") := rfl

/-! ## C4 — folder ingestion and the mirror-structure table -/

/-- Keys outside the ingested children list keep their structure rows. -/
theorem foldl_structure_lookup_not_mem (parent : String)
    (children : List String) :
    ∀ (n : Nat) (S : List (String × StructureRow)) (g : String),
      g ∉ children →
      lookupAssoc ((enumerate n children).foldl
          (fun acc pc => replaceAssoc acc pc.2
            { parentGuid := parent, position := pc.1 }) S) g =
        lookupAssoc S g := by
  induction children with
  | nil => intro n S g _; rfl
  | cons c cs ih =>
    intro n S g hg
    rw [show enumerate n (c :: cs) = (n, c) :: enumerate (n + 1) cs from rfl,
      List.foldl_cons]
    rw [ih (n + 1) _ g (fun h => hg (List.mem_cons_of_mem _ h))]
    exact lookupAssoc_replaceAssoc_ne _ _ _ _
      (fun h => hg (h ▸ List.mem_cons_self _ _))

/-- Each ingested child's structure row records the folder and the child's
position (offset by the enumeration start). -/
theorem foldl_structure_lookup_get (parent : String)
    (children : List String) :
    ∀ (n : Nat) (S : List (String × StructureRow)), children.Nodup →
      ∀ i (hi : i < children.length),
      lookupAssoc ((enumerate n children).foldl
          (fun acc pc => replaceAssoc acc pc.2
            { parentGuid := parent, position := pc.1 }) S)
        (children.get ⟨i, hi⟩) =
        some { parentGuid := parent, position := n + i } := by
  induction children with
  | nil => intro n S _ i hi; exact absurd hi (Nat.not_lt_zero i)
  | cons c cs ih =>
    intro n S hnd i hi
    obtain ⟨hcn, hnd'⟩ := List.nodup_cons.mp hnd
    rw [show enumerate n (c :: cs) = (n, c) :: enumerate (n + 1) cs from rfl,
      List.foldl_cons]
    cases i with
    | zero =>
      have hc : (c :: cs).get ⟨0, hi⟩ = c := rfl
      rw [hc, foldl_structure_lookup_not_mem parent cs (n + 1) _ c hcn]
      show lookupAssoc
        (replaceAssoc S c { parentGuid := parent, position := n }) c = _
      rw [lookupAssoc_replaceAssoc_self]
      simp
    | succ j =>
      have hc : (c :: cs).get ⟨j + 1, hi⟩ =
        cs.get ⟨j, Nat.lt_of_succ_lt_succ hi⟩ := rfl
      rw [hc]
      have := ih (n + 1)
        (replaceAssoc S (n, c).2 { parentGuid := parent, position := (n, c).1 })
        hnd' j (Nat.lt_of_succ_lt_succ hi)
      rw [this]
      congr 2
      omega

/-- The folder ingestion's fold over the store only rewrites the structure
component. -/
theorem foldl_db_structure (parent : String) (ps : List (Nat × String)) :
    ∀ db : Db,
      (ps.foldl (fun db pc =>
        { db with
          synced_structure := replaceAssoc db.synced_structure pc.2
            { parentGuid := parent, position := pc.1 } }) db).synced_structure =
      ps.foldl (fun acc pc => replaceAssoc acc pc.2
        { parentGuid := parent, position := pc.1 }) db.synced_structure := by
  induction ps with
  | nil => intro db; rfl
  | cons p ps ih => intro db; rw [List.foldl_cons, List.foldl_cons, ih]

/-- C4 (amended): ingesting a folder record writes, for each child of the
`children` array (assumed duplicate-free), a structure row `(folder,
position)` with positions 0..n−1, and leaves the structure row of every GUID
outside that array untouched — stale rows from earlier ingestions of the
same folder are not removed. -/
theorem store_incoming_folder_structure (db : Db) (ts : Int)
    (f : FolderRecord) (hnd : f.children.Nodup) :
    (∀ i (hi : i < f.children.length),
        lookupAssoc (store_incoming_folder db ts f).synced_structure
          (f.children.get ⟨i, hi⟩) =
          some { parentGuid := f.guid, position := i }) ∧
    (∀ g, g ∉ f.children →
        lookupAssoc (store_incoming_folder db ts f).synced_structure g =
          lookupAssoc db.synced_structure g) := by
  simp only [store_incoming_folder]
  rw [foldl_db_structure]
  constructor
  · intro i hi
    have h2 := foldl_structure_lookup_get f.guid f.children 0
      db.synced_structure hnd i hi
    rw [Nat.zero_add] at h2
    exact h2
  · intro g hg
    exact foldl_structure_lookup_not_mem f.guid f.children 0
      db.synced_structure g hg

/-- Applies C4 to a folder with children A and B: B's structure row records
position 1. -/
theorem store_incoming_folder_structure_witness :
    lookupAssoc (store_incoming_folder Db.empty 0 fABEx).synced_structure
      "bookmarkBBBB" = some { parentGuid := "folderAAAAAA", position := 1 } :=
  (store_incoming_folder_structure Db.empty 0 fABEx (by decide)).1 1 (by decide)

/-- Re-ingesting the folder with child B removed leaves B's structure row in
place: the structure table is not a permutation of the latest `children`
array. -/
theorem folder_reingest_stale_structure_cex :
    (dbStaleEx.synced_structure.filter
        (fun p => p.2.parentGuid = "folderAAAAAA")).map Prod.fst =
      ["bookmarkAAAA", "bookmarkBBBB"] ∧
    fAEx.children = ["bookmarkAAAA"] ∧
    ¬ ((dbStaleEx.synced_structure.filter
        (fun p => p.2.parentGuid = "folderAAAAAA")).map Prod.fst).Perm
      fAEx.children := by
  refine ⟨by decide, by decide, by decide⟩

/-! ## C10 — outgoing payloads carry no private fields -/

/-- Every payload the outgoing loop emits for a live row has `hasDupe` true
and no keyword, tags or tag folder name. -/
theorem outgoingPayloads_private_fields (structRows : List StructureToUploadRow) :
    ∀ (items : List UploadRow) (ps : List Payload),
      outgoingPayloads structRows items = .ok ps →
      ∀ p ∈ ps, lookupField p "deleted" = none →
        lookupField p "hasDupe" = some (.bool true) ∧
        (lookupField p "keyword" = none ∨
          lookupField p "keyword" = some .null) ∧
        (lookupField p "tags" = none ∨
          lookupField p "tags" = some (.arr [])) ∧
        lookupField p "tagFolderName" = none := by
  intro items
  induction items with
  | nil =>
    intro ps h p hp _
    cases h
    cases hp
  | cons row rest ih =>
    intro ps h p hp hdel
    rw [outgoingPayloads] at h
    by_cases hd : row.isDeleted
    · rw [if_pos hd] at h
      cases hrec : outgoingPayloads structRows rest with
      | error e => rw [hrec] at h; exact Except.noConfusion h
      | ok ps2 =>
        rw [hrec] at h
        obtain rfl := Except.ok.inj h
        rcases List.mem_cons.mp hp with rfl | hp2
        · rw [show lookupField
            [("id", JsonVal.str (guid_to_id row.guid)),
             ("deleted", JsonVal.bool true)] "deleted" =
              some (JsonVal.bool true) from rfl] at hdel
          exact Option.noConfusion hdel
        · exact ih ps2 hrec p hp2 hdel
    · rw [if_neg hd] at h
      cases hpg : row.parentGuid with
      | none => rw [hpg] at h; exact Except.noConfusion h
      | some parentGuid =>
        rw [hpg] at h
        cases hda : row.dateAdded with
        | none => rw [hda] at h; exact Except.noConfusion h
        | some dateAdded =>
          rw [hda] at h
          cases hk : row.kind with
          | none => rw [hk] at h; exact Except.noConfusion h
          | some kind =>
            rw [hk] at h
            cases kind with
            | Bookmark =>
              cases hu : row.url with
              | none => rw [hu] at h; exact Except.noConfusion h
              | some u =>
                rw [hu] at h
                cases hrec : outgoingPayloads structRows rest with
                | error e => rw [hrec] at h; exact Except.noConfusion h
                | ok ps2 =>
                  rw [hrec] at h
                  obtain rfl := Except.ok.inj h
                  rcases List.mem_cons.mp hp with rfl | hp2
                  · exact ⟨rfl, Or.inr rfl, Or.inr rfl, rfl⟩
                  · exact ih ps2 hrec p hp2 hdel
            | Query =>
              cases hu : row.url with
              | none => rw [hu] at h; exact Except.noConfusion h
              | some u => rw [hu] at h; exact Except.noConfusion h
            | Folder =>
              cases hrec : outgoingPayloads structRows rest with
              | error e => rw [hrec] at h; exact Except.noConfusion h
              | ok ps2 =>
                rw [hrec] at h
                obtain rfl := Except.ok.inj h
                rcases List.mem_cons.mp hp with rfl | hp2
                · exact ⟨rfl, Or.inl rfl, Or.inl rfl, rfl⟩
                · exact ih ps2 hrec p hp2 hdel
            | Livemark => exact ih ps h p hp hdel
            | Separator =>
              cases hpos : row.position with
              | none => rw [hpos] at h; exact Except.noConfusion h
              | some pos => rw [hpos] at h; exact Except.noConfusion h

/-- C10: every non-tombstone payload the outgoing builder emits has
`hasDupe = true`, a null or absent `keyword`, an empty or absent `tags`
array, and no `tagFolderName`, whatever keyword or tag data the staged row
carried. -/
theorem fetch_outgoing_private_fields (structRows : List StructureToUploadRow)
    (items : List UploadRow) (ps : List Payload)
    (h : fetch_outgoing_records structRows items = .ok ps) :
    ∀ p ∈ ps, lookupField p "deleted" = none →
      lookupField p "hasDupe" = some (.bool true) ∧
      (lookupField p "keyword" = none ∨
        lookupField p "keyword" = some .null) ∧
      (lookupField p "tags" = none ∨
        lookupField p "tags" = some (.arr [])) ∧
      lookupField p "tagFolderName" = none :=
  outgoingPayloads_private_fields structRows items ps h

/-- Applies C10 to a staged bookmark row that carries a stored keyword and
tag folder name: the emitted payload still has `hasDupe` true, a null
keyword, empty tags and no tag folder name. -/
theorem fetch_outgoing_private_fields_witness :
    fetch_outgoing_records [] [bmkUploadRowEx] = .ok [bmkPayloadEx] ∧
    (lookupField bmkPayloadEx "hasDupe" = some (.bool true) ∧
     (lookupField bmkPayloadEx "keyword" = none ∨
       lookupField bmkPayloadEx "keyword" = some .null) ∧
     (lookupField bmkPayloadEx "tags" = none ∨
       lookupField bmkPayloadEx "tags" = some (.arr [])) ∧
     lookupField bmkPayloadEx "tagFolderName" = none) :=
  ⟨rfl, fetch_outgoing_private_fields [] [bmkUploadRowEx] [bmkPayloadEx] rfl
    bmkPayloadEx (List.mem_singleton.mpr rfl) rfl⟩

end BookmarkSync
